import Mathlib

/-!
Verification development for the Claudix content-block classifier,
selection state, and webview delivery bridge.

Strings are modelled as lists of characters (`Str`).  JavaScript values
flowing through the classifier are modelled by the `RawValue` inductive,
a JSON-like tagged value (numbers are modelled as integers; fractional
numbers are outside the scope of this embedding).  The regular-expression
searches of the source are embedded as explicit leftmost-match scanning
functions that reproduce the greedy/lazy backtracking behaviour of each
concrete pattern used by the source.
-/

set_option maxRecDepth 4096

namespace Claudix

/-- Strings as lists of characters. -/
abbrev Str := List Char

/-- Does the string start with the given pattern (JS `String.startsWith`)? -/
def strStartsWith : Str → Str → Bool
  | _, [] => true
  | [], _ :: _ => false
  | c :: s, x :: xs => if c = x then strStartsWith s xs else false

/-- Does the string contain the given pattern as a substring (JS `String.includes`)? -/
def strIncludes : Str → Str → Bool
  | [], pat => pat.isEmpty
  | s@(_ :: t), pat => strStartsWith s pat || strIncludes t pat

/-- The whitespace class of JS regular expressions and `String.trim`
(restricted to the code points that can occur in the protocol texts). -/
def isJsSpace (c : Char) : Bool :=
  c = ' ' || c = '\t' || c = '\n' || c = '\r' || c = '\x0b' || c = '\x0c' || c = ' '

/-- Remove leading whitespace. -/
def ltrim (s : Str) : Str := s.dropWhile isJsSpace

/-- Remove trailing whitespace (JS `replace(/\s*$/, '')`). -/
def rtrim (s : Str) : Str := (s.reverse.dropWhile isJsSpace).reverse

/-- JS `String.trim`. -/
def strTrim (s : Str) : Str := rtrim (ltrim s)

/-- Decimal digit test (the `\d` class). -/
def isDigitCh (c : Char) : Bool := '0' ≤ c && c ≤ '9'

/-- Value of a nonempty string of decimal digits (JS `parseInt(_, 10)` on a `\d+` capture). -/
def digitsToNat (s : Str) : Nat := s.foldl (fun acc c => acc * 10 + (c.toNat - '0'.toNat)) 0

/-- Decimal rendering of a natural number. -/
def natToStr (n : Nat) : Str := Nat.toDigits 10 n

/-- Decimal rendering of an integer (JS template-literal coercion of a number). -/
def intToStr (n : Int) : Str := if n < 0 then '-' :: natToStr n.natAbs else natToStr n.natAbs

/-- The part of a path after its last `/` (JS `path.split('/').pop()`). -/
def basenamePart (s : Str) : Str := (s.reverse.takeWhile (fun c => !(c = '/'))).reverse

/-- JS `filePath.split('/').pop() || filePath`: the basename, or the whole
path when the basename is the empty string (falsy). -/
def fileNameOf (s : Str) : Str :=
  let b := basenamePart s
  if b.isEmpty then s else b

/-- JavaScript values as seen by the classifier: a JSON-like tagged value.
Numbers are modelled as integers. -/
inductive RawValue where
  | null
  | bool (b : Bool)
  | int (n : Int)
  | str (s : Str)
  | arr (items : List RawValue)
  | obj (fields : List (Str × RawValue))

/-- First binding of a key in an object's field list (JS property lookup). -/
def lookupField : List (Str × RawValue) → Str → Option RawValue
  | [], _ => none
  | (k, v) :: t, key => if k = key then some v else lookupField t key

/-- JS property access `v.key`: `none` models `undefined` (also for any
non-object receiver, matching `v?.key` / property access on primitives). -/
def getField (v : RawValue) (key : Str) : Option RawValue :=
  match v with
  | .obj fields => lookupField fields key
  | _ => none

/-- JS truthiness of a value. -/
def truthy : RawValue → Bool
  | .null => false
  | .bool b => b
  | .int n => !(n == 0)
  | .str s => !s.isEmpty
  | .arr _ => true
  | .obj _ => true

/-- Left brace character, kept out of string literals. -/
def lbrace : Char := Char.ofNat 123

/-- Right brace character, kept out of string literals. -/
def rbrace : Char := Char.ofNat 125

mutual
/-- JS `String(v)` coercion. -/
def jsToString : RawValue → Str
  | .null => "null".data
  | .bool b => if b then "true".data else "false".data
  | .int n => intToStr n
  | .str s => s
  | .arr items => jsArrJoin items
  | .obj _ => "[object Object]".data

/-- `Array.prototype.toString`: comma-join, with `null` rendering as the
empty string. -/
def jsArrJoin : List RawValue → Str
  | [] => []
  | [v] =>
    match v with
    | .null => []
    | w => jsToString w
  | v :: rest =>
    (match v with
     | .null => []
     | w => jsToString w) ++ ',' :: jsArrJoin rest
end

/-- Hexadecimal digit for a value below 16. -/
def hexDigit (n : Nat) : Char :=
  if n < 10 then Char.ofNat ('0'.toNat + n) else Char.ofNat ('a'.toNat + (n - 10))

/-- JSON string escaping of one character. -/
def escapeChar (c : Char) : Str :=
  if c = '"' then ['\\', '"']
  else if c = '\\' then ['\\', '\\']
  else if c = '\n' then ['\\', 'n']
  else if c = '\r' then ['\\', 'r']
  else if c = '\t' then ['\\', 't']
  else if c = '\x08' then ['\\', 'b']
  else if c = '\x0c' then ['\\', 'f']
  else if c.toNat < 32 then
    ['\\', 'u', '0', '0', hexDigit (c.toNat / 16), hexDigit (c.toNat % 16)]
  else [c]

/-- JSON quoting of a string. -/
def quoteStr (s : Str) : Str := '"' :: s.flatMap escapeChar ++ ['"']

mutual
/-- JS `JSON.stringify`. -/
def stringify : RawValue → Str
  | .null => "null".data
  | .bool b => if b then "true".data else "false".data
  | .int n => intToStr n
  | .str s => quoteStr s
  | .arr items => '[' :: stringifyItems items ++ [']']
  | .obj fields => lbrace :: stringifyFields fields ++ [rbrace]

/-- Comma-joined array elements of `JSON.stringify`. -/
def stringifyItems : List RawValue → Str
  | [] => []
  | [v] => stringify v
  | v :: rest => stringify v ++ ',' :: stringifyItems rest

/-- Comma-joined object entries of `JSON.stringify`. -/
def stringifyFields : List (Str × RawValue) → Str
  | [] => []
  | [(k, v)] => quoteStr k ++ ':' :: stringify v
  | (k, v) :: rest => quoteStr k ++ ':' :: stringify v ++ ',' :: stringifyFields rest
end

/-- JSON whitespace. -/
def isJsonSpace (c : Char) : Bool := c = ' ' || c = '\t' || c = '\n' || c = '\r'

/-- Skip JSON whitespace. -/
def skipWs (s : Str) : Str := s.dropWhile isJsonSpace

/-- Parse four hex digits of a `\uXXXX` escape. -/
def parseHex4 (s : Str) : Option (Char × Str) :=
  match s with
  | a :: b :: c :: d :: rest =>
    let hv : Char → Option Nat := fun x =>
      if '0' ≤ x && x ≤ '9' then some (x.toNat - '0'.toNat)
      else if 'a' ≤ x && x ≤ 'f' then some (x.toNat - 'a'.toNat + 10)
      else if 'A' ≤ x && x ≤ 'F' then some (x.toNat - 'A'.toNat + 10)
      else none
    match hv a, hv b, hv c, hv d with
    | some ha, some hb, some hc, some hd =>
      some (Char.ofNat (((ha * 16 + hb) * 16 + hc) * 16 + hd), rest)
    | _, _, _, _ => none
  | _ => none

/-- Parse the body of a JSON string after the opening quote, fuel-bounded. -/
def parseStringBody : Nat → Str → Option (Str × Str)
  | 0, _ => none
  | _, [] => none
  | fuel + 1, c :: rest =>
    if c = '"' then some ([], rest)
    else if c = '\\' then
      match rest with
      | [] => none
      | e :: rest2 =>
        let dec : Option (Char × Str) :=
          if e = '"' then some ('"', rest2)
          else if e = '\\' then some ('\\', rest2)
          else if e = '/' then some ('/', rest2)
          else if e = 'n' then some ('\n', rest2)
          else if e = 't' then some ('\t', rest2)
          else if e = 'r' then some ('\r', rest2)
          else if e = 'b' then some ('\x08', rest2)
          else if e = 'f' then some ('\x0c', rest2)
          else if e = 'u' then parseHex4 rest2
          else none
        match dec with
        | none => none
        | some (ch, rest3) =>
          match parseStringBody fuel rest3 with
          | none => none
          | some (cs, r) => some (ch :: cs, r)
    else if c.toNat < 32 then none
    else
      match parseStringBody fuel rest with
      | none => none
      | some (cs, r) => some (c :: cs, r)

/-- Parse a JSON number (integer-valued only: the protocol payloads carry
integer line/column numbers; fractional numbers are out of scope). -/
def parseJsonNumber (s : Str) : Option (RawValue × Str) :=
  let (neg, s1) : Bool × Str :=
    match s with
    | '-' :: t => (true, t)
    | _ => (false, s)
  match s1 with
  | [] => none
  | c :: _ =>
    if !isDigitCh c then none
    else
      let ds := s1.takeWhile isDigitCh
      let rest := s1.dropWhile isDigitCh
      if 1 < ds.length && ds.head? = some '0' then none
      else
        match rest with
        | '.' :: _ => none
        | 'e' :: _ => none
        | 'E' :: _ => none
        | _ =>
          let v : Int := (digitsToNat ds : Nat)
          some (.int (if neg then -v else v), rest)

mutual
/-- Parse one JSON value, fuel-bounded. -/
def parseJsonValue : Nat → Str → Option (RawValue × Str)
  | 0, _ => none
  | fuel + 1, s0 =>
    let s := skipWs s0
    match s with
    | [] => none
    | c :: rest =>
      if c = 'n' then
        if strStartsWith s ("null".data) then some (.null, s.drop 4) else none
      else if c = 't' then
        if strStartsWith s ("true".data) then some (.bool true, s.drop 4) else none
      else if c = 'f' then
        if strStartsWith s ("false".data) then some (.bool false, s.drop 5) else none
      else if c = '"' then
        match parseStringBody (rest.length + 1) rest with
        | none => none
        | some (cs, r) => some (.str cs, r)
      else if c = '-' || isDigitCh c then parseJsonNumber s
      else if c = '[' then
        match parseJsonItems fuel rest with
        | none => none
        | some (items, r) => some (.arr items, r)
      else if c = lbrace then
        match parseJsonFields fuel rest with
        | none => none
        | some (fields, r) => some (.obj fields, r)
      else none

/-- Parse the items of a JSON array after the opening bracket. -/
def parseJsonItems : Nat → Str → Option (List RawValue × Str)
  | 0, _ => none
  | fuel + 1, s0 =>
    let s := skipWs s0
    match s with
    | ']' :: rest => some ([], rest)
    | _ =>
      match parseJsonValue fuel s with
      | none => none
      | some (v, r0) =>
        let r := skipWs r0
        match r with
        | ',' :: r2 =>
          match parseJsonItemsMore fuel r2 with
          | none => none
          | some (vs, r3) => some (v :: vs, r3)
        | ']' :: r2 => some ([v], r2)
        | _ => none

/-- Parse the items of a JSON array after a comma (a trailing comma is invalid). -/
def parseJsonItemsMore : Nat → Str → Option (List RawValue × Str)
  | 0, _ => none
  | fuel + 1, s0 =>
    match parseJsonValue fuel s0 with
    | none => none
    | some (v, r0) =>
      let r := skipWs r0
      match r with
      | ',' :: r2 =>
        match parseJsonItemsMore fuel r2 with
        | none => none
        | some (vs, r3) => some (v :: vs, r3)
      | ']' :: r2 => some ([v], r2)
      | _ => none

/-- Parse the entries of a JSON object after the opening brace. -/
def parseJsonFields : Nat → Str → Option (List (Str × RawValue) × Str)
  | 0, _ => none
  | fuel + 1, s0 =>
    let s := skipWs s0
    match s with
    | c :: rest =>
      if c = rbrace then some ([], rest)
      else if c = '"' then
        match parseJsonFieldTail fuel rest with
        | none => none
        | some (fields, r) => some (fields, r)
      else none
    | [] => none

/-- Parse one `"key": value` entry (after the key's opening quote) and the rest. -/
def parseJsonFieldTail : Nat → Str → Option (List (Str × RawValue) × Str)
  | 0, _ => none
  | fuel + 1, s0 =>
    match parseStringBody (s0.length + 1) s0 with
    | none => none
    | some (key, r0) =>
      match skipWs r0 with
      | ':' :: r1 =>
        match parseJsonValue fuel r1 with
        | none => none
        | some (v, r2) =>
          match skipWs r2 with
          | ',' :: r3 =>
            match skipWs r3 with
            | '"' :: r4 =>
              match parseJsonFieldTail fuel r4 with
              | none => none
              | some (fields, r5) => some ((key, v) :: fields, r5)
            | _ => none
          | c :: r3 =>
            if c = rbrace then some ([(key, v)], r3) else none
          | [] => none
      | _ => none
end

/-- JS `JSON.parse` returning `none` on any parse error (the `catch` path). -/
def jsonParse (s : Str) : Option RawValue :=
  match parseJsonValue (s.length + 8) s with
  | none => none
  | some (v, rest) => if (skipWs rest).isEmpty then some v else none

/-! ## Content block model (ContentBlock.ts) -/

/-- One entry of a Diagnostics block.  Field values keep the JS shape
(`entry.filePath || ''` etc. can pass through non-string payloads). -/
structure DiagEntry where
  filePath : RawValue
  line : RawValue
  column : RawValue
  message : RawValue
  code : RawValue
  severity : RawValue

/-- The closed union of renderable blocks (`ContentBlockType`). -/
inductive ContentBlock where
  | text (text : Str) (isSlashCommand : Option Bool)
  | thinking (thinking : Str)
  | image (source : Option RawValue)
  | document (title : Option RawValue) (source : Option RawValue)
  | interrupt (message : Str) (friendlyMessage : Str)
  | selection (filePath : Str) (label : Str) (startLine : Option Nat) (endLine : Option Nat)
      (selectedText : Option Str)
  | opened_file (filePath : Str) (label : Str)
  | diagnostics (diagnostics : List DiagEntry)
  | slash_command_result (result : Str) (isError : Bool)
  | tool_use (raw : RawValue)
  | tool_result (tool_use_id : Option RawValue) (content : Option RawValue)
      (is_error : Option RawValue)

/-! ## Regex scans

Each regular expression of the source is embedded as a leftmost-match scan:
the JS engine tries each start position from the left, and at a given start
explores quantifiers in greedy/lazy order; the scans below reproduce that
search order for the concrete patterns used. -/

/-- Content before the first occurrence of `pat`, together with the rest
after `pat` (used for lazy captures between two literal delimiters). -/
def takeUntilLit (pat : Str) : Str → Option (Str × Str)
  | [] => none
  | s@(c :: t) =>
    if strStartsWith s pat then some ([], s.drop pat.length)
    else
      match takeUntilLit pat t with
      | none => none
      | some (pre, rest) => some (c :: pre, rest)

/-- Leftmost match of a pattern `openT([\s\S]*?)closeT`: the lazy capture
between the first opening literal that is followed by the closing literal. -/
def extractBetween (openT closeT : Str) : Str → Option Str
  | [] => none
  | s@(_ :: t) =>
    if strStartsWith s openT then
      match takeUntilLit closeT (s.drop openT.length) with
      | some (content, _) => some content
      | none => extractBetween openT closeT t
    else extractBetween openT closeT t

/-- One attempt of `/from ([^:]+):/` at a fixed start position: the greedy
`[^:]+` capture runs to the first colon, which must exist and be preceded
by at least one non-colon character. -/
def tryFromPathAt (s : Str) : Option Str :=
  if strStartsWith s ("from ".data) then
    let rest := s.drop 5
    let a := rest.takeWhile (fun c => !(c = ':'))
    if a.isEmpty then none
    else if (rest.drop a.length).isEmpty then none
    else some a
  else none

/-- Leftmost match of `/from ([^:]+):/`. -/
def scanFromPath : Str → Option Str
  | [] => none
  | s@(_ :: t) =>
    match tryFromPathAt s with
    | some r => some r
    | none => scanFromPath t

/-- One attempt of `/lines (\d+) to (\d+)/` at a fixed start position. -/
def tryLinesAt (s : Str) : Option (Nat × Nat) :=
  if strStartsWith s ("lines ".data) then
    let r := s.drop 6
    let d1 := r.takeWhile isDigitCh
    if d1.isEmpty then none
    else
      let r2 := r.drop d1.length
      if strStartsWith r2 (" to ".data) then
        let d2 := (r2.drop 4).takeWhile isDigitCh
        if d2.isEmpty then none else some (digitsToNat d1, digitsToNat d2)
      else none
  else none

/-- Leftmost match of `/lines (\d+) to (\d+)/`. -/
def scanLines : Str → Option (Nat × Nat)
  | [] => none
  | s@(_ :: t) =>
    match tryLinesAt s with
    | some r => some r
    | none => scanLines t

/-- One attempt of `/line (\d+)/` at a fixed start position. -/
def tryLineAt (s : Str) : Option Nat :=
  if strStartsWith s ("line ".data) then
    let d := (s.drop 5).takeWhile isDigitCh
    if d.isEmpty then none else some (digitsToNat d)
  else none

/-- Leftmost match of `/line (\d+)/`. -/
def scanLine : Str → Option Nat
  | [] => none
  | s@(_ :: t) =>
    match tryLineAt s with
    | some r => some r
    | none => scanLine t

/-- The sentinel literal ending the snippet capture. -/
def snippetSentinel : Str := "This may or may not be related".data

/-- Does `\n+\s*` followed by the sentinel match starting at `q`?  Because
`\n` is itself in `\s`, the two quantifiers jointly accept any split, so
this holds exactly when `q` starts with a newline and the sentinel appears
after some nonempty all-whitespace prefix of `q`. -/
def tailMatchesAt (q : Str) : Bool :=
  match q with
  | '\n' :: _ =>
    let w := (q.takeWhile isJsSpace).length
    (List.range w).any (fun i => strStartsWith (q.drop (i + 1)) snippetSentinel)
  | _ => false

/-- The capture of `\s*([\s\S]*?)\n+\s*` sentinel applied to the text after
the path colon: the engine first takes the maximal whitespace run for
`\s*` and grows the lazy capture; if that fails it backtracks `\s*`
character by character, at which point the first viable position yields an
empty capture. -/
def findCap (a : Str) : Option Str :=
  let w := (a.takeWhile isJsSpace).length
  match (List.range (a.length + 1)).find? (fun j => w ≤ j && tailMatchesAt (a.drop j)) with
  | some j => some ((a.drop w).take (j - w))
  | none =>
    match (List.range w).find? (fun i => tailMatchesAt (a.drop (w - 1 - i))) with
    | some _ => some []
    | none => none

/-- One attempt of the snippet regex
`/from [^:]+:\s*([\s\S]*?)\n+\s*This may or may not be related/`
at a fixed start position. -/
def trySnippetAt (s : Str) : Option Str :=
  if strStartsWith s ("from ".data) then
    let rest := s.drop 5
    let a := rest.takeWhile (fun c => !(c = ':'))
    if a.isEmpty then none
    else
      match rest.drop a.length with
      | _ :: afterColon => findCap afterColon
      | [] => none
  else none

/-- Leftmost match of the snippet regex. -/
def scanSnippet : Str → Option Str
  | [] => none
  | s@(_ :: t) =>
    match trySnippetAt s with
    | some r => some r
    | none => scanSnippet t

/-- Characters matched by `.` in a JS regex (no newlines). -/
def isDotChar (c : Char) : Bool := !(c = '\n' || c = '\r' || c = ' ' || c = ' ')

/-- Does `(?:the )?(?:IDE|editor)` match starting at `r`? -/
def ideOrEditorAt (r : Str) : Bool :=
  (strStartsWith r ("the ".data) &&
    (strStartsWith (r.drop 4) ("IDE".data) || strStartsWith (r.drop 4) ("editor".data)))
  || strStartsWith r ("IDE".data) || strStartsWith r ("editor".data)

/-- Does `' in '` then `(?:the )?(?:IDE|editor)` match starting at `r`? -/
def openedTail (r : Str) : Bool :=
  strStartsWith r (" in ".data) && ideOrEditorAt (r.drop 4)

/-- Lazy `(.+?)` capture before the `' in …'` tail: grow a nonempty run of
non-newline characters one at a time, checking the tail after each step. -/
def openedCapFrom : Str → Option Str
  | [] => none
  | c :: rest =>
    if isDotChar c then
      if openedTail rest then some [c]
      else
        match openedCapFrom rest with
        | none => none
        | some cs => some (c :: cs)
    else none

/-- One attempt of `/(?:opened the file|opened file) (.+?) in (?:the )?(?:IDE|editor)/`
at a fixed start position. -/
def tryOpenedAt (s : Str) : Option Str :=
  if strStartsWith s ("opened the file ".data) then openedCapFrom (s.drop 16)
  else if strStartsWith s ("opened file ".data) then openedCapFrom (s.drop 12)
  else none

/-- Leftmost match of the opened-file regex. -/
def scanOpened : Str → Option Str
  | [] => none
  | s@(_ :: t) =>
    match tryOpenedAt s with
    | some r => some r
    | none => scanOpened t

/-! ## Classifier (parseMessageContent and helpers) -/

/-- The `INTERRUPT_MESSAGES` record: value for `text` if it is one of the
two marker keys. -/
def lookupInterrupt (t : Str) : Option Str :=
  if t = "[Request interrupted by user]".data then some ("Interrupted".data)
  else if t = "[Request interrupted by user for tool use]".data then
    some ("Tool interrupted".data)
  else none

/-- The `TOOL_REJECTION_MARKER` constant. -/
def toolRejectionMarker : Str :=
  "The user doesn't want to proceed with this tool use. The tool use was rejected (eg. if it was a file edit, the new_string was NOT written to the file). STOP what you are doing and wait for the user to tell you how to proceed.".data

/-- The `TOOL_REJECTION_PREFIX` constant. -/
def toolRejectionReasonStart : Str :=
  "The user doesn't want to proceed with this tool use. The tool use was rejected (eg. if it was a file edit, the new_string was NOT written to the file). The user provided the following reason for the rejection: ".data

/-- Truthiness of an optional parsed line number (JS `startLine && endLine`
treats the number `0` as falsy). -/
def truthyNum : Option Nat → Bool
  | some n => !(n == 0)
  | none => false

/-- `parseSelection` of the source. -/
def parseSelection (text : Str) : Option ContentBlock :=
  match scanFromPath text with
  | none => none
  | some filePath =>
    let fileName := fileNameOf filePath
    let lines : Option Nat × Option Nat :=
      match scanLines text with
      | some (a, b) => (some a, some b)
      | none =>
        match scanLine text with
        | some a => (some a, none)
        | none => (none, none)
    let startLine := lines.1
    let endLine := lines.2
    let label : Str :=
      if truthyNum startLine && truthyNum endLine then
        fileName ++ '#' :: natToStr (startLine.getD 0) ++ '-' :: natToStr (endLine.getD 0)
      else if truthyNum startLine then fileName ++ '#' :: natToStr (startLine.getD 0)
      else fileName
    let selectedText := (scanSnippet text).map rtrim
    some (.selection filePath label startLine endLine selectedText)

/-- `parseOpenedFile` of the source. -/
def parseOpenedFile (text : Str) : Option ContentBlock :=
  match scanOpened text with
  | none => none
  | some filePath => some (.opened_file filePath (fileNameOf filePath))

/-- `parseSlashCommandResult` of the source (stderr checked first). -/
def parseSlashCommandResult (text : Str) : Option ContentBlock :=
  match extractBetween ("<local-command-stderr>".data) ("</local-command-stderr>".data) text with
  | some content => some (.slash_command_result (strTrim content) true)
  | none =>
    match extractBetween ("<local-command-stdout>".data) ("</local-command-stdout>".data) text with
    | some content => some (.slash_command_result (strTrim content) false)
    | none => none

/-- JS `o || d`: the value when truthy, the default otherwise (also when
the property was absent). -/
def orDefault (o : Option RawValue) (d : RawValue) : RawValue :=
  match o with
  | some v => if truthy v then v else d
  | none => d

/-- One diagnostics entry from a parsed JSON record (missing or falsy
fields default to the empty string / zero). -/
def diagEntryOf (e : RawValue) : DiagEntry where
  filePath := orDefault (getField e ("filePath".data)) (.str [])
  line := orDefault (getField e ("line".data)) (.int 0)
  column := orDefault (getField e ("column".data)) (.int 0)
  message := orDefault (getField e ("message".data)) (.str [])
  code := orDefault (getField e ("code".data)) (.str [])
  severity := orDefault (getField e ("severity".data)) (.str [])

/-- `parseDiagnostics` of the source: nested tag extraction, then
`JSON.parse` with an `Array.isArray` check; every failure yields `none`. -/
def parseDiagnostics (text : Str) : Option ContentBlock :=
  match extractBetween ("<post-tool-use-hook>".data) ("</post-tool-use-hook>".data) text with
  | none => none
  | some inner =>
    match extractBetween ("<ide_diagnostics>".data) ("</ide_diagnostics>".data) inner with
    | none => none
    | some body =>
      match jsonParse body with
      | some (.arr items) => some (.diagnostics (items.map diagEntryOf))
      | _ => none

/-- `parseSlashCommandText` of the source. -/
def parseSlashCommandText (text : Str) : Option Str :=
  match extractBetween ("<command-name>".data) ("</command-name>".data) text with
  | none => none
  | some nameC =>
    let args : Str :=
      match extractBetween ("<command-args>".data) ("</command-args>".data) text with
      | some a => strTrim a
      | none => []
    some (strTrim (strTrim nameC ++ ' ' :: args))

/-- Plain text block constructor (`createTextBlock`). -/
def createTextBlock (text : Str) : ContentBlock := .text text none

/-- Final stage of the text pipeline: drop tool-rejection markers, else a
plain text block. -/
def tailTextBlock (text : Str) : List ContentBlock :=
  if text = toolRejectionMarker ∨ strStartsWith text toolRejectionReasonStart = true then []
  else [createTextBlock text]

/-- `parseTextBlock` of the source: the ordered heuristics pipeline. -/
def parseTextBlock (text : Str) : List ContentBlock :=
  match lookupInterrupt text with
  | some friendly => [ContentBlock.interrupt text friendly]
  | none =>
    match (if strIncludes text ("<ide_selection>".data) then parseSelection text else none) with
    | some b => [b]
    | none =>
      match (if strIncludes text ("<ide_opened_file>".data) then parseOpenedFile text else none) with
      | some b => [b]
      | none =>
        match (if strIncludes text ("<local-command-stderr>".data)
                  || strIncludes text ("<local-command-stdout>".data) then
                parseSlashCommandResult text else none) with
        | some b => [b]
        | none =>
          match (if strIncludes text ("<post-tool-use-hook>".data) then
                  parseDiagnostics text else none) with
          | some b => [b]
          | none =>
            match parseSlashCommandText text with
            | some s => if s.isEmpty then tailTextBlock text else [ContentBlock.text s (some true)]
            | none => tailTextBlock text

/-- JS `x ?? y` on a property read: a present `null` behaves like absent. -/
def nullishGet (v : RawValue) (k : Str) : Option RawValue :=
  match getField v k with
  | some .null => none
  | o => o

/-- `String(raw.text ?? raw.value ?? '')`. -/
def textPayload (raw : RawValue) : Str :=
  jsToString (((nullishGet raw ("text".data)).orElse
    (fun _ => nullishGet raw ("value".data))).getD (.str []))

/-- `String(raw ?? '')` for the non-object fallback branch. -/
def scalarString : RawValue → Str
  | .null => []
  | v => jsToString v

/-- `parseBlock` of the source: dispatch on the fragment's `type` tag.
Arrays are objects in JS, so they reach the switch and fall to the default
(`JSON.stringify`) branch; primitives take the `String(raw ?? '')` branch.
Every branch is total: no rule can throw. -/
def parseBlock (raw : RawValue) : List ContentBlock :=
  match raw with
  | .arr _ | .obj _ =>
    (match getField raw ("type".data) with
     | some (.str t) =>
       if t = "text".data then parseTextBlock (textPayload raw)
       else if t = "thinking".data then
         [.thinking (jsToString ((nullishGet raw ("thinking".data)).getD (.str [])))]
       else if t = "redacted_thinking".data then []
       else if t = "image".data then [.image (getField raw ("source".data))]
       else if t = "document".data then
         [.document (getField raw ("title".data)) (getField raw ("source".data))]
       else if t = "tool_use".data then [.tool_use raw]
       else if t = "tool_result".data then
         [.tool_result (getField raw ("tool_use_id".data)) (getField raw ("content".data))
           (getField raw ("is_error".data))]
       else [createTextBlock (stringify raw)]
     | _ => [createTextBlock (stringify raw)])
  | _ => [createTextBlock (scalarString raw)]

/-- `parseMessageContent` of the source: fold pushing each fragment's
blocks in order. -/
def parseMessageContent (rawContent : List RawValue) : List ContentBlock :=
  rawContent.foldl (fun blocks raw => blocks ++ parseBlock raw) []

/-! ## Selection state (selectionState.ts) -/

/-- The `SelectionRange` value shared between the extension and the
webview. -/
structure SelectionRange where
  filePath : Str
  startLine : Int
  endLine : Int
  startColumn : Option Int
  endColumn : Option Int
  selectedText : Str
  autoInclude : Option Bool
deriving DecidableEq

/-- The private `serialize` signature of `SelectionState`:
`filePath:startLine:endLine:(startColumn ?? 0):(endColumn ?? 0):selectedText`. -/
def serializeSel (s : SelectionRange) : Str :=
  s.filePath ++ ':' :: intToStr s.startLine ++ ':' :: intToStr s.endLine
    ++ ':' :: intToStr (s.startColumn.getD 0) ++ ':' :: intToStr (s.endColumn.getD 0)
    ++ ':' :: s.selectedText

/-- The fields of the `SelectionState` singleton. -/
structure SelState where
  lastSelection : Option SelectionRange
  lastSignature : Option Str
  pendingAutoInclude : Bool
  pendingSignature : Option Str
deriving DecidableEq

/-- Initial state of the singleton: no selection, no pending flag. -/
def SelState.init : SelState := ⟨none, none, false, none⟩

/-- `SelectionState.set(selection, options)`.  `autoInclude` is truthy only
as `some true` (JS `options?.autoInclude`). -/
def SelState.set (st : SelState) (selection : Option SelectionRange)
    (autoInclude : Option Bool) : SelState :=
  let st1 : SelState :=
    match selection with
    | some s => { st with lastSelection := some s, lastSignature := some (serializeSel s) }
    | none => { st with lastSelection := none, lastSignature := none }
  if selection.isSome && autoInclude.getD false then
    { st1 with pendingAutoInclude := true, pendingSignature := st1.lastSignature }
  else if selection.isNone ∨ st1.pendingSignature ≠ st1.lastSignature then
    { st1 with pendingAutoInclude := false, pendingSignature := none }
  else st1

/-- `SelectionState.consume()`: the returned snapshot and the state after
the call. -/
def SelState.consume (st : SelState) : Option SelectionRange × SelState :=
  match st.lastSelection with
  | none => (none, st)
  | some s =>
    if st.pendingAutoInclude then
      (some { s with autoInclude := some true },
       { st with pendingAutoInclude := false, pendingSignature := none })
    else (some s, st)

/-- `SelectionState.getSnapshot()` (read-only). -/
def SelState.getSnapshot (st : SelState) : Option SelectionRange := st.lastSelection

/-- `SelectionState.hasPendingAutoInclude()` (read-only). -/
def SelState.hasPendingAutoInclude (st : SelState) : Bool := st.pendingAutoInclude

/-- `SelectionState.clearAutoInclude()`. -/
def SelState.clearAutoInclude (st : SelState) : SelState :=
  { st with pendingAutoInclude := false, pendingSignature := none }

/-! ## Delivery bridge (webViewService.ts)

Render targets are identified by naturals.  The constant
`{type: 'from-extension', message}` envelope is elided: the pending buffer
and the send log hold the inner message.  The effect of a successful
`webview.postMessage` is recorded in the `log` field; whether a given send
attempt succeeds or throws is supplied by a `sendOk` oracle. -/

/-- `WebviewHost`. -/
inductive WVHost where
  | sidebar
  | editor
deriving DecidableEq

/-- `WebviewBootstrapConfig`. -/
structure WVConfig where
  host : WVHost
  page : Option Str
  id : Option Str

/-- The mutable fields of `WebViewService`, plus the `selectionState`
singleton it pokes through `handleAutoIncludeDelivered`, plus the send
log observing deliveries. -/
structure WVState where
  webviews : List Nat
  ready : List Nat
  configs : List (Nat × WVConfig)
  pending : List RawValue
  sel : SelState
  log : List (Nat × RawValue)

/-- Initial service state. -/
def WVState.init : WVState := ⟨[], [], [], [], SelState.init, []⟩

/-- `MAX_PENDING_MESSAGES`. -/
def MAX_PENDING_MESSAGES : Nat := 50

/-- First config bound to a target (JS `Map.get`). -/
def lookupConfig : List (Nat × WVConfig) → Nat → Option WVConfig
  | [], _ => none
  | (k, v) :: t, w => if k = w then some v else lookupConfig t w

/-- JS `Map.set`: replace in place or append. -/
def setConfig : List (Nat × WVConfig) → Nat → WVConfig → List (Nat × WVConfig)
  | [], w, c => [(w, c)]
  | (k, v) :: t, w, c => if k = w then (w, c) :: t else (k, v) :: setConfig t w c

/-- Delete a target from every tracking set (`webviews`, `readyWebviews`,
`webviewConfigs`). -/
def removeTarget (st : WVState) (w : Nat) : WVState :=
  { st with
    webviews := st.webviews.filter (fun x => !(x = w))
    ready := st.ready.filter (fun x => !(x = w))
    configs := st.configs.filter (fun e => !(e.1 = w)) }

/-- The addressing policy of `postMessage`/`flushPendingMessages`:
`config.host === 'sidebar'` and not (`config.page` truthy and ≠ `'chat'`). -/
def chatAddressed (c : WVConfig) : Bool :=
  (match c.host with
   | .sidebar => true
   | .editor => false) &&
  (match c.page with
   | none => true
   | some pg => pg.isEmpty || pg = "chat".data)

/-- Does the target's config match the sidebar/chat addressing policy
(absent config fails the check)? -/
def matchesChat (cfgs : List (Nat × WVConfig)) (w : Nat) : Bool :=
  match lookupConfig cfgs w with
  | none => false
  | some c => chatAddressed c

/-- `handleAutoIncludeDelivered`: does the delivered message look like a
selection-changed request with a truthy auto-include flag? -/
def isAutoSelMessage (m : RawValue) : Bool :=
  match getField m ("request".data) with
  | none => false
  | some req =>
    truthy req &&
    (match getField req ("type".data) with
     | some (.str t) => t = "selection_changed".data
     | _ => false) &&
    (match getField req ("selection".data) with
     | some sel =>
       match getField sel ("autoInclude".data) with
       | some v => truthy v
       | none => false
     | none => false)

/-- Apply `handleAutoIncludeDelivered` to the selection singleton after a
successful delivery. -/
def applyAutoIncludeDelivered (sel : SelState) (m : RawValue) : SelState :=
  if isAutoSelMessage m then sel.clearAutoInclude else sel

/-- The buffer update of `enqueuePendingMessage`: push, then shift once
when the capacity is exceeded. -/
def enqueueList (pend : List RawValue) (m : RawValue) : List RawValue :=
  let q := pend ++ [m]
  if MAX_PENDING_MESSAGES < q.length then q.drop 1 else q

/-- `enqueuePendingMessage`. -/
def enqueuePendingMessage (st : WVState) (m : RawValue) : WVState :=
  { st with pending := enqueueList st.pending m }

/-- Loop body of the broadcast in `postMessage`: skip non-ready or
non-matching targets; a successful send sets `delivered`, logs the
delivery and runs the auto-include hook; a throwing send defers the
target to `toRemove`.  The readiness/config checks read the state as it
was at loop entry, as in the source (removals are deferred). -/
structure PostAcc where
  delivered : Bool
  toRemove : List Nat
  sel : SelState
  sent : List (Nat × RawValue)

/-- One iteration of the `postMessage` broadcast loop. -/
def postStep (sendOk : Nat → Bool) (st0 : WVState) (m : RawValue) (acc : PostAcc)
    (w : Nat) : PostAcc :=
  if !(st0.ready.contains w) then acc
  else if !(matchesChat st0.configs w) then acc
  else if sendOk w then
    { acc with
      delivered := true
      sel := applyAutoIncludeDelivered acc.sel m
      sent := acc.sent ++ [(w, m)] }
  else { acc with toRemove := acc.toRemove ++ [w] }

/-- `postMessage`: buffer when no target is registered; otherwise
broadcast to ready chat-addressed targets, buffer when nothing was
delivered, then evict the targets whose send threw. -/
def postMessage (sendOk : Nat → Bool) (st : WVState) (m : RawValue) : WVState :=
  if st.webviews.isEmpty then enqueuePendingMessage st m
  else
    let acc := st.webviews.foldl (postStep sendOk st m) ⟨false, [], st.sel, []⟩
    let st1 := { st with sel := acc.sel, log := st.log ++ acc.sent }
    let st2 := if acc.delivered then st1 else enqueuePendingMessage st1 m
    acc.toRemove.foldl removeTarget st2

/-- Inner replay loop of `flushPendingMessages` for one target: send the
buffered payloads in order (the oracle is indexed by buffer position);
the first throwing send stops the loop and reports failure.  Returns
(failed, selection state after the hooks, payloads actually sent). -/
def flushLoop (ok : Nat → Bool) : List RawValue → Nat → SelState →
    Bool × SelState × List RawValue
  | [], _, sel => (false, sel, [])
  | m :: rest, i, sel =>
    if ok i then
      let r := flushLoop ok rest (i + 1) (applyAutoIncludeDelivered sel m)
      (r.1, r.2.1, m :: r.2.2)
    else (true, sel, [])

/-- One iteration of the outer `flushPendingMessages` loop: skip targets
whose config does not match; replay the buffer to matching targets,
evicting a target whose send threw (only the current target is ever
removed, matching JS live `Set` iteration). -/
def flushStep (sendOk : Nat → Nat → Bool) (s : WVState) (w : Nat) : WVState :=
  if matchesChat s.configs w then
    let r := flushLoop (sendOk w) s.pending 0 s.sel
    let s1 := { s with sel := r.2.1, log := s.log ++ (r.2.2).map (fun m => (w, m)) }
    if r.1 then removeTarget s1 w else s1
  else s

/-- `flushPendingMessages`: guard, replay to every ready target, then
clear the whole buffer after the loop completes. -/
def flushPendingMessages (sendOk : Nat → Nat → Bool) (st : WVState) : WVState :=
  if st.ready.isEmpty || st.pending.isEmpty then st
  else
    let st1 := st.ready.foldl (flushStep sendOk) st
    { st1 with pending := [] }

/-- `markWebviewReady`: idempotent readiness transition on the first
inbound message, triggering a flush. -/
def markWebviewReady (sendOk : Nat → Nat → Bool) (st : WVState) (w : Nat) : WVState :=
  if st.ready.contains w then st
  else flushPendingMessages sendOk { st with ready := st.ready ++ [w] }

/-- `registerWebview`: add the target (JS `Set.add` is idempotent) in the
not-ready state and record its bootstrap config (JS `Map.set`). -/
def registerWebview (st : WVState) (w : Nat) (cfg : WVConfig) : WVState :=
  { st with
    webviews := if st.webviews.contains w then st.webviews else st.webviews ++ [w]
    configs := setConfig st.configs w cfg }

/-- The sidebar chat bootstrap config used by `resolveWebviewView`. -/
def chatConfig : WVConfig := ⟨.sidebar, some ("chat".data), none⟩

/-- Posting a list of messages in order (oracle irrelevant when no target
is registered). -/
def postAll (ms : List RawValue) (st : WVState) : WVState :=
  ms.foldl (fun s m => postMessage (fun _ => false) s m) st

/-- The messages a given target received, in order, from a slice of the
send log. -/
def sentTo (entries : List (Nat × RawValue)) (w : Nat) : List RawValue :=
  entries.filterMap (fun e => if e.1 = w then some e.2 else none)

/-! ## Claim C1: the canonical selection fragment -/

/-- The text of the claim's fragment: an `<ide_selection>` marker whose
text contains `from src/a.ts: lines 3 to 7\nfoo\nbar\n   This may or may
not be related`, exactly as written in the claim. -/
def c1Text : Str :=
  "<ide_selection>from src/a.ts: lines 3 to 7\nfoo\nbar\n   This may or may not be related</ide_selection>".data

/-- The claim's fragment as a raw `text` content fragment. -/
def c1Fragment : RawValue :=
  .obj [("type".data, .str ("text".data)), ("text".data, .str c1Text)]

/-- C1 (counterexample): on the claim's fragment the classifier yields one
Selection block with filePath `src/a.ts`, startLine 3, endLine 7, label
`a.ts#3-7` — but selectedText is `"lines 3 to 7\nfoo\nbar"`, not the
claimed `"foo\nbar"`: with the line-range phrase placed after the path
colon, the snippet capture (text between the colon and the sentinel,
whitespace-trimmed) includes that phrase. -/
theorem c1_selection_counterexample :
    parseMessageContent [c1Fragment] =
      [ContentBlock.selection ("src/a.ts".data) ("a.ts#3-7".data) (some 3) (some 7)
        (some ("lines 3 to 7\nfoo\nbar".data))] ∧
    ("lines 3 to 7\nfoo\nbar".data : Str) ≠ "foo\nbar".data := by
  exact ⟨by rfl, by decide⟩

/-- C1 (amended): on the claim's fragment the classifier yields exactly
one Selection block with filePath `src/a.ts`, startLine 3, endLine 7,
label `a.ts#3-7`, and selectedText equal to the full text between the
path colon and the trailing sentinel, trimmed — here
`"lines 3 to 7\nfoo\nbar"`. -/
theorem c1_selection_block :
    parseMessageContent [c1Fragment] =
      [ContentBlock.selection ("src/a.ts".data) ("a.ts#3-7".data) (some 3) (some 7)
        (some ("lines 3 to 7\nfoo\nbar".data))] := by
  rfl

/-! ## Claim C8: fire-once auto-include -/

/-- A selection that itself carries the auto-include flag. -/
def c8SelFlagged : SelectionRange :=
  ⟨"a.ts".data, 1, 2, some 0, some 4, "x".data, some true⟩

/-- A selection without the auto-include flag. -/
def c8SelPlain : SelectionRange :=
  ⟨"a.ts".data, 1, 2, some 0, some 4, "x".data, none⟩

/-- C8 (counterexample): for a selection that itself already carries the
auto-include flag, the second `consume()` after `set(S, {autoInclude:true})`
returns the stored selection still carrying the flag — not "the same
selection but without the auto-include flag" as the claim states for
every selection. -/
theorem c8_consume_counterexample :
    ((((SelState.init.set (some c8SelFlagged) (some true)).consume).2.consume).1 =
      some c8SelFlagged) ∧
    c8SelFlagged.autoInclude = some true := by
  exact ⟨rfl, rfl⟩

/-- C8 (amended): for every selection `S` that does not itself carry the
auto-include flag, after `set(S, {autoInclude:true})` the first
`consume()` returns a copy of `S` stamped with the flag and clears the
pending state; a second `consume()` without an intervening `set` returns
`S` itself — hence without the flag. -/
theorem c8_consume_fire_once (S : SelectionRange) (h : S.autoInclude ≠ some true) :
    ((SelState.init.set (some S) (some true)).consume).1 =
      some { S with autoInclude := some true } ∧
    (((SelState.init.set (some S) (some true)).consume).2).hasPendingAutoInclude = false ∧
    ((((SelState.init.set (some S) (some true)).consume).2).consume).1 = some S ∧
    S.autoInclude ≠ some true := by
  exact ⟨rfl, rfl, rfl, h⟩

/-- Witness for C8 at a concrete flag-free selection. -/
theorem c8_consume_fire_once_witness :
    ((SelState.init.set (some c8SelPlain) (some true)).consume).1 =
      some { c8SelPlain with autoInclude := some true } ∧
    (((SelState.init.set (some c8SelPlain) (some true)).consume).2).hasPendingAutoInclude
      = false ∧
    ((((SelState.init.set (some c8SelPlain) (some true)).consume).2).consume).1 =
      some c8SelPlain ∧
    c8SelPlain.autoInclude ≠ some true :=
  c8_consume_fire_once c8SelPlain (by decide)

/-! ## Claim C10: pending auto-include implies a stored selection -/

/-- The invariant: a pending auto-include never exists without a stored
selection. -/
def SelInv (st : SelState) : Prop :=
  st.pendingAutoInclude = true → st.lastSelection.isSome = true

/-- C10: the initial state satisfies the invariant and every state-changing
operation (`set`, `consume`, `clearAutoInclude`) preserves it;
`getSnapshot` and `hasPendingAutoInclude` are read-only by construction
(their embeddings return no state). -/
theorem selection_state_invariant :
    SelInv SelState.init ∧
    (∀ st sel auto, SelInv st → SelInv (SelState.set st sel auto)) ∧
    (∀ st, SelInv st → SelInv (SelState.consume st).2) ∧
    (∀ st, SelInv st → SelInv (SelState.clearAutoInclude st)) := by
  refine ⟨?_, ?_, ?_, ?_⟩
  · intro h
    simp [SelState.init] at h
  · intro st sel auto _
    cases sel with
    | some s =>
      simp only [SelState.set, SelInv]
      split
      · intro
        rfl
      · split
        · intro h
          simp at h
        · intro
          rfl
    | none =>
      simp only [SelState.set, SelInv]
      split
      · simp at *
      · split
        · intro h
          simp at h
        · simp [Option.isNone] at *
  · intro st h
    cases hs : st.lastSelection with
    | none =>
      simp only [SelState.consume, hs]
      exact h
    | some s =>
      simp only [SelState.consume, hs]
      split
      · intro h2
        simp at h2
      · exact h
  · intro st _ h
    simp [SelState.clearAutoInclude] at h

/-- Witness for C10 at a concrete state transition. -/
theorem selection_state_invariant_witness :
    SelInv (SelState.set SelState.init (some c8SelPlain) (some true)) :=
  selection_state_invariant.2.1 SelState.init (some c8SelPlain) (some true)
    (by intro h; simp [SelState.init] at h)

/-! ## Claim C9: malformed diagnostics payloads -/

/-- A hook fragment whose diagnostics body is not valid JSON. -/
def c9BadText : Str :=
  "<post-tool-use-hook><ide_diagnostics>oops</ide_diagnostics></post-tool-use-hook>".data

/-- C9: a `<post-tool-use-hook>` text whose `<ide_diagnostics>` body is
missing, is not valid JSON, or parses to a non-array never yields a
Diagnostics block (in particular never a partially populated one), and on
the concrete bad-JSON fragment the whole pipeline falls through to the
plain-text fallback. -/
theorem diagnostics_parse_failures :
    (∀ t, extractBetween ("<post-tool-use-hook>".data) ("</post-tool-use-hook>".data) t = none →
      parseDiagnostics t = none) ∧
    (∀ t inner,
      extractBetween ("<post-tool-use-hook>".data) ("</post-tool-use-hook>".data) t = some inner →
      extractBetween ("<ide_diagnostics>".data) ("</ide_diagnostics>".data) inner = none →
      parseDiagnostics t = none) ∧
    (∀ t inner body,
      extractBetween ("<post-tool-use-hook>".data) ("</post-tool-use-hook>".data) t = some inner →
      extractBetween ("<ide_diagnostics>".data) ("</ide_diagnostics>".data) inner = some body →
      jsonParse body = none →
      parseDiagnostics t = none) ∧
    (∀ t inner body v,
      extractBetween ("<post-tool-use-hook>".data) ("</post-tool-use-hook>".data) t = some inner →
      extractBetween ("<ide_diagnostics>".data) ("</ide_diagnostics>".data) inner = some body →
      jsonParse body = some v →
      (∀ items, v ≠ RawValue.arr items) →
      parseDiagnostics t = none) ∧
    parseTextBlock c9BadText = [createTextBlock c9BadText] := by
  refine ⟨?_, ?_, ?_, ?_, ?_⟩
  · intro t h1
    simp [parseDiagnostics, h1]
  · intro t inner h1 h2
    simp [parseDiagnostics, h1, h2]
  · intro t inner body h1 h2 h3
    simp [parseDiagnostics, h1, h2, h3]
  · intro t inner body v h1 h2 h3 h4
    simp only [parseDiagnostics, h1, h2, h3]
    cases v with
    | arr items => exact absurd rfl (h4 items)
    | null => rfl
    | bool b => rfl
    | int n => rfl
    | str s => rfl
    | obj fields => rfl
  · rfl

/-- Witness for C9: the bad-JSON hook fragment yields no Diagnostics block. -/
theorem diagnostics_parse_failures_witness : parseDiagnostics c9BadText = none :=
  diagnostics_parse_failures.2.2.1 c9BadText
    ("<ide_diagnostics>oops</ide_diagnostics>".data) ("oops".data) (by rfl) (by rfl) (by rfl)

/-! ## Claim C3: total fallback on unrecognized fragments -/

/-- The discriminator tags the switch of `parseBlock` recognizes. -/
def knownTypeTags : List Str :=
  ["text".data, "thinking".data, "redacted_thinking".data, "image".data,
   "document".data, "tool_use".data, "tool_result".data]

/-- The fragment's tag is unrecognized: whenever the `type` property is a
string, it is not one of the known tags (a missing or non-string tag is
always unrecognized). -/
def UnknownTag (raw : RawValue) : Prop :=
  ∀ t, getField raw ("type".data) = some (.str t) → ¬ t ∈ knownTypeTags

/-- Is the value an object in the JS sense (arrays included)? -/
def isObjLike : RawValue → Bool
  | .obj _ => true
  | .arr _ => true
  | _ => false

/-- C3: the classifier is total by construction (every branch of the
embedding is a total function), an object-like fragment with an
unrecognized tag yields exactly one Text block holding its
`JSON.stringify` dump, and a non-object fragment yields exactly one Text
block holding its `String(raw ?? '')` form. -/
theorem classifier_unknown_fallback :
    (∀ raw, isObjLike raw = true → UnknownTag raw →
      parseBlock raw = [ContentBlock.text (stringify raw) none]) ∧
    (∀ raw, isObjLike raw = false →
      parseBlock raw = [ContentBlock.text (scalarString raw) none]) := by
  constructor
  · intro raw hobj hu
    cases raw with
    | null => simp [isObjLike] at hobj
    | bool b => simp [isObjLike] at hobj
    | int n => simp [isObjLike] at hobj
    | str s => simp [isObjLike] at hobj
    | arr items => rfl
    | obj fields =>
      cases hf : getField (.obj fields) ("type".data) with
      | none => simp [parseBlock, hf, createTextBlock]
      | some v =>
        cases v with
        | str t =>
          have hmem := hu t hf
          simp [knownTypeTags] at hmem
          obtain ⟨h1, h2, h3, h4, h5, h6, h7⟩ := hmem
          simp [parseBlock, hf, h1, h2, h3, h4, h5, h6, h7, createTextBlock]
        | null => simp [parseBlock, hf, createTextBlock]
        | bool b => simp [parseBlock, hf, createTextBlock]
        | int n => simp [parseBlock, hf, createTextBlock]
        | arr l => simp [parseBlock, hf, createTextBlock]
        | obj l => simp [parseBlock, hf, createTextBlock]
  · intro raw hobj
    cases raw with
    | null => rfl
    | bool b => rfl
    | int n => rfl
    | str s => rfl
    | arr items => simp [isObjLike] at hobj
    | obj fields => simp [isObjLike] at hobj

/-- A fragment with an unrecognized tag. -/
def c3Unknown : RawValue :=
  .obj [("type".data, .str ("banana".data)), ("x".data, .int 5)]

/-- Witness for C3 at a concrete unrecognized fragment. -/
theorem classifier_unknown_fallback_witness :
    parseBlock c3Unknown = [ContentBlock.text (stringify c3Unknown) none] :=
  classifier_unknown_fallback.1 c3Unknown (by rfl)
    (by
      intro t ht
      simp [c3Unknown, getField, lookupField] at ht
      subst ht
      decide)

/-! ## Claim C4: order preservation and zero-or-one expansion -/

/-- A fragment the design defines as silent: redacted internal reasoning,
or a text fragment whose pipeline text is a tool-rejection marker. -/
def IsSilentFragment (raw : RawValue) : Prop :=
  getField raw ("type".data) = some (.str ("redacted_thinking".data)) ∨
  (getField raw ("type".data) = some (.str ("text".data)) ∧
    (textPayload raw = toolRejectionMarker ∨
     strStartsWith (textPayload raw) toolRejectionReasonStart = true))

/-- The final pipeline stage is empty only on the rejection markers. -/
theorem tailTextBlock_eq_nil {t : Str} (h : tailTextBlock t = []) :
    t = toolRejectionMarker ∨ strStartsWith t toolRejectionReasonStart = true := by
  unfold tailTextBlock at h
  split at h
  · assumption
  · simp at h

/-- The text pipeline yields at most one block. -/
theorem parseTextBlock_length_le (t : Str) : (parseTextBlock t).length ≤ 1 := by
  unfold parseTextBlock
  split
  · simp
  · split
    · simp
    · split
      · simp
      · split
        · simp
        · split
          · simp
          · split
            · split
              · unfold tailTextBlock
                split <;> simp
              · simp
            · unfold tailTextBlock
              split <;> simp

/-- The text pipeline is empty only on the rejection markers. -/
theorem parseTextBlock_eq_nil {t : Str} (h : parseTextBlock t = []) :
    t = toolRejectionMarker ∨ strStartsWith t toolRejectionReasonStart = true := by
  unfold parseTextBlock at h
  split at h
  · simp at h
  · split at h
    · simp at h
    · split at h
      · simp at h
      · split at h
        · simp at h
        · split at h
          · simp at h
          · split at h
            · split at h
              · exact tailTextBlock_eq_nil h
              · simp at h
            · exact tailTextBlock_eq_nil h

/-- Folding block concatenation is the same as `flatMap`. -/
theorem parseMessageContent_foldl (l : List RawValue) (acc : List ContentBlock) :
    l.foldl (fun blocks raw => blocks ++ parseBlock raw) acc = acc ++ l.flatMap parseBlock := by
  induction l generalizing acc with
  | nil => simp
  | cons r t ih => simp [ih, List.flatMap_cons, List.append_assoc]

/-- C4: the classifier is the order-preserving flat map of `parseBlock`;
every fragment expands to at most one block; a fragment expanding to zero
blocks is one of the silent ones (redacted reasoning or a rejection-marker
text); redacted fragments do expand to zero blocks (as does the literal
rejection-marker text fragment); and every non-silent fragment expands to
exactly one block. -/
theorem classifier_order_and_arity :
    (∀ l, parseMessageContent l = l.flatMap parseBlock) ∧
    (∀ raw, (parseBlock raw).length ≤ 1) ∧
    (∀ raw, parseBlock raw = [] → IsSilentFragment raw) ∧
    (∀ raw, getField raw ("type".data) = some (.str ("redacted_thinking".data)) →
      parseBlock raw = []) ∧
    parseBlock (.obj [("type".data, .str ("text".data)),
      ("text".data, .str toolRejectionMarker)]) = [] ∧
    (∀ raw, ¬ IsSilentFragment raw → (parseBlock raw).length = 1) := by
  have hlen : ∀ raw, (parseBlock raw).length ≤ 1 := by
    intro raw
    cases raw with
    | null => simp [parseBlock]
    | bool b => simp [parseBlock]
    | int n => simp [parseBlock]
    | str s => simp [parseBlock]
    | arr items => simp [parseBlock, getField]
    | obj fields =>
      cases hf : getField (.obj fields) ("type".data) with
      | none => simp [parseBlock, hf]
      | some v =>
        cases v with
        | str t =>
          simp only [parseBlock, hf]
          split_ifs <;> simp [parseTextBlock_length_le]
        | null => simp [parseBlock, hf]
        | bool b => simp [parseBlock, hf]
        | int n => simp [parseBlock, hf]
        | arr l => simp [parseBlock, hf]
        | obj l => simp [parseBlock, hf]
  have hnil : ∀ raw, parseBlock raw = [] → IsSilentFragment raw := by
    intro raw h
    cases raw with
    | null => simp [parseBlock, createTextBlock] at h
    | bool b => simp [parseBlock, createTextBlock] at h
    | int n => simp [parseBlock, createTextBlock] at h
    | str s => simp [parseBlock, createTextBlock] at h
    | arr items => simp [parseBlock, getField, createTextBlock] at h
    | obj fields =>
      cases hf : getField (.obj fields) ("type".data) with
      | none => simp [parseBlock, hf, createTextBlock] at h
      | some v =>
        cases v with
        | str t =>
          simp only [parseBlock, hf] at h
          split_ifs at h with h1 h2 h3 h4 h5 h6 h7
          all_goals first
            | exact Or.inr ⟨by rw [hf, h1], parseTextBlock_eq_nil h⟩
            | exact Or.inl (by rw [hf, h3])
        | null => simp [parseBlock, hf, createTextBlock] at h
        | bool b => simp [parseBlock, hf, createTextBlock] at h
        | int n => simp [parseBlock, hf, createTextBlock] at h
        | arr l => simp [parseBlock, hf, createTextBlock] at h
        | obj l => simp [parseBlock, hf, createTextBlock] at h
  refine ⟨?_, hlen, hnil, ?_, ?_, ?_⟩
  · intro l
    simpa using parseMessageContent_foldl l []
  · intro raw hf
    cases raw with
    | null => simp [getField] at hf
    | bool b => simp [getField] at hf
    | int n => simp [getField] at hf
    | str s => simp [getField] at hf
    | arr items => simp [getField] at hf
    | obj fields =>
      simp [parseBlock, hf]
  · rfl
  · intro raw hn
    have hne : parseBlock raw ≠ [] := fun hz => hn (hnil raw hz)
    have h1 := hlen raw
    have h0 : (parseBlock raw).length ≠ 0 := by
      simpa [List.length_eq_zero] using hne
    omega

/-- A redacted-thinking fragment. -/
def c4Redacted : RawValue := .obj [("type".data, .str ("redacted_thinking".data))]

/-- Witness for C4: the redacted fragment is one of the silent ones. -/
theorem classifier_order_and_arity_witness : IsSilentFragment c4Redacted :=
  classifier_order_and_arity.2.2.1 c4Redacted (by rfl)

/-! ## Claim C7: the pending buffer is a bounded FIFO -/

/-- Characterization of the enqueue update. -/
theorem enqueueList_def (pend : List RawValue) (m : RawValue) :
    enqueueList pend m =
      if MAX_PENDING_MESSAGES < pend.length + 1 then (pend ++ [m]).drop 1 else pend ++ [m] := by
  unfold enqueueList
  simp

/-- Enqueueing below capacity appends. -/
theorem enqueueList_lt (pend : List RawValue) (m : RawValue)
    (h : pend.length < MAX_PENDING_MESSAGES) : enqueueList pend m = pend ++ [m] := by
  rw [enqueueList_def, if_neg (by omega)]

/-- Enqueueing at capacity evicts the oldest entry. -/
theorem enqueueList_eq_cap (pend : List RawValue) (m : RawValue)
    (h : pend.length = MAX_PENDING_MESSAGES) :
    enqueueList pend m = pend.drop 1 ++ [m] := by
  rw [enqueueList_def, if_pos (by omega)]
  cases pend with
  | nil => simp [MAX_PENDING_MESSAGES] at h
  | cons a t => simp

/-- Enqueueing preserves the capacity bound. -/
theorem enqueueList_length_le (pend : List RawValue) (m : RawValue)
    (h : pend.length ≤ MAX_PENDING_MESSAGES) :
    (enqueueList pend m).length ≤ MAX_PENDING_MESSAGES := by
  rcases Nat.lt_or_ge pend.length MAX_PENDING_MESSAGES with hlt | hge
  · rw [enqueueList_lt _ _ hlt]
    simp
    omega
  · have heq := Nat.le_antisymm h hge
    rw [enqueueList_eq_cap _ _ heq]
    cases pend with
    | nil => simp [MAX_PENDING_MESSAGES] at heq
    | cons a t =>
      simp at heq ⊢
      omega

/-- Closed form of repeated enqueueing below or at capacity: only the most
recent `MAX_PENDING_MESSAGES` entries survive, in order. -/
theorem foldl_enqueueList (ms : List RawValue) :
    ∀ pend : List RawValue, pend.length ≤ MAX_PENDING_MESSAGES →
      ms.foldl enqueueList pend =
        (pend ++ ms).drop (pend.length + ms.length - MAX_PENDING_MESSAGES) := by
  induction ms with
  | nil =>
    intro pend h
    have hz : pend.length + ([] : List RawValue).length - MAX_PENDING_MESSAGES = 0 := by
      simp
      omega
    rw [List.foldl_nil, hz, List.drop_zero, List.append_nil]
  | cons m ms ih =>
    intro pend h
    rcases Nat.lt_or_ge pend.length MAX_PENDING_MESSAGES with hlt | hge
    · have he := enqueueList_lt pend m hlt
      have h2 : (enqueueList pend m).length ≤ MAX_PENDING_MESSAGES := by
        rw [he]
        simp
        omega
      have step : (m :: ms).foldl enqueueList pend = ms.foldl enqueueList (enqueueList pend m) :=
        rfl
      rw [step, ih _ h2, he]
      simp [List.append_assoc]
      congr 1
      omega
    · have heq : pend.length = MAX_PENDING_MESSAGES := Nat.le_antisymm h hge
      cases pend with
      | nil => simp [MAX_PENDING_MESSAGES] at heq
      | cons a t =>
        have hlen : t.length + 1 = MAX_PENDING_MESSAGES := by simpa using heq
        have he : enqueueList (a :: t) m = t ++ [m] := by
          rw [enqueueList_eq_cap _ _ heq]
          rfl
        have h2 : (t ++ [m]).length ≤ MAX_PENDING_MESSAGES := by
          simp
          omega
        have step : (m :: ms).foldl enqueueList (a :: t)
            = ms.foldl enqueueList (enqueueList (a :: t) m) := rfl
        rw [step, he, ih _ h2]
        have hidx1 : (t ++ [m]).length + ms.length - MAX_PENDING_MESSAGES = ms.length := by
          simp
          omega
        have hidx2 : (a :: t).length + (m :: ms).length - MAX_PENDING_MESSAGES
            = ms.length + 1 := by
          simp
          omega
        rw [hidx1, hidx2, List.cons_append, List.drop_succ_cons, List.append_assoc]
        rfl

/-- When no target is registered, `postMessage` only enqueues. -/
theorem postMessage_no_targets (sendOk : Nat → Bool) (st : WVState) (m : RawValue)
    (h : st.webviews = []) :
    postMessage sendOk st m = { st with pending := enqueueList st.pending m } := by
  unfold postMessage
  rw [if_pos (by simp [h])]
  rfl

/-- Posting repeatedly with no registered target folds `enqueueList` over
the buffer and touches nothing else. -/
theorem postAll_no_targets (ms : List RawValue) :
    ∀ st : WVState, st.webviews = [] →
      postAll ms st = { st with pending := ms.foldl enqueueList st.pending } := by
  induction ms with
  | nil => intro st h; rfl
  | cons m ms ih =>
    intro st h
    calc postAll (m :: ms) st
        = postAll ms (postMessage (fun _ => false) st m) := rfl
      _ = postAll ms { st with pending := enqueueList st.pending m } := by
            rw [postMessage_no_targets _ _ _ h]
      _ = { st with pending := (m :: ms).foldl enqueueList st.pending } := by
            rw [ih _ (by simp [h])]
            simp [List.foldl_cons]

/-- C7: the pending buffer is a bounded FIFO of capacity
`MAX_PENDING_MESSAGES = 50`: an enqueue below the bound appends, an
enqueue at the bound evicts exactly the oldest entry, the bound is
preserved, and posting any sequence of messages while no target is
registered retains exactly the most recent 50 messages in order. -/
theorem pending_buffer_bounded_fifo :
    (∀ pend m, List.length pend ≤ MAX_PENDING_MESSAGES →
      (enqueueList pend m).length ≤ MAX_PENDING_MESSAGES) ∧
    (∀ pend m, List.length pend < MAX_PENDING_MESSAGES → enqueueList pend m = pend ++ [m]) ∧
    (∀ pend m, List.length pend = MAX_PENDING_MESSAGES →
      enqueueList pend m = pend.drop 1 ++ [m]) ∧
    (∀ ms : List RawValue,
      (postAll ms WVState.init).pending = ms.drop (ms.length - MAX_PENDING_MESSAGES)) := by
  refine ⟨enqueueList_length_le, enqueueList_lt, enqueueList_eq_cap, ?_⟩
  intro ms
  rw [postAll_no_targets ms WVState.init rfl]
  have hfe := foldl_enqueueList ms [] (by simp)
  simp only [List.nil_append, List.length_nil, Nat.zero_add] at hfe
  simpa [WVState.init] using hfe

/-- A buffer at capacity. -/
def c7Full : List RawValue := List.replicate MAX_PENDING_MESSAGES (.int 0)

/-- Witness for C7: enqueueing into a full buffer drops the oldest entry. -/
theorem pending_buffer_bounded_fifo_witness :
    enqueueList c7Full (.int 7) = c7Full.drop 1 ++ [.int 7] :=
  pending_buffer_bounded_fifo.2.2.1 c7Full (.int 7) (by simp [c7Full])

/-! ## Claim C5: per-target failure isolation in `postMessage` -/

/-- The targets to which `postMessage` attempts delivery: ready and
matching the sidebar/chat addressing policy. -/
def attemptedB (st : WVState) (w : Nat) : Bool :=
  st.ready.contains w && matchesChat st.configs w

/-- The selection-state update of one broadcast pass. -/
def postSel (sendOk : Nat → Bool) (st : WVState) (m : RawValue) : SelState :=
  st.webviews.foldl
    (fun s w => if attemptedB st w && sendOk w then applyAutoIncludeDelivered s m else s) st.sel

/-- The deliveries of one broadcast pass. -/
def postSent (sendOk : Nat → Bool) (st : WVState) (m : RawValue) : List (Nat × RawValue) :=
  (st.webviews.filter (fun w => attemptedB st w && sendOk w)).map (fun w => (w, m))

/-- The targets evicted by one broadcast pass. -/
def postRemoved (sendOk : Nat → Bool) (st : WVState) : List Nat :=
  st.webviews.filter (fun w => attemptedB st w && !sendOk w)

/-- Whether one broadcast pass delivered to at least one target. -/
def postDelivered (sendOk : Nat → Bool) (st : WVState) : Bool :=
  st.webviews.any (fun w => attemptedB st w && sendOk w)

/-- Closed form of the broadcast loop fold. -/
theorem postStep_foldl (sendOk : Nat → Bool) (st0 : WVState) (m : RawValue) :
    ∀ (L : List Nat) (acc : PostAcc),
      L.foldl (postStep sendOk st0 m) acc =
        { delivered := acc.delivered || L.any (fun w => attemptedB st0 w && sendOk w)
          toRemove := acc.toRemove ++ L.filter (fun w => attemptedB st0 w && !sendOk w)
          sel := L.foldl
            (fun s w => if attemptedB st0 w && sendOk w then applyAutoIncludeDelivered s m else s)
            acc.sel
          sent := acc.sent
            ++ (L.filter (fun w => attemptedB st0 w && sendOk w)).map (fun w => (w, m)) } := by
  intro L
  induction L with
  | nil => intro acc; simp
  | cons w T ih =>
    intro acc
    rw [List.foldl_cons, ih]
    by_cases hc : w ∈ st0.ready
    case neg => simp [postStep, attemptedB, hc, List.append_assoc]
    case pos =>
      cases hm : matchesChat st0.configs w with
      | false => simp [postStep, attemptedB, hc, hm, List.append_assoc]
      | true =>
        cases hs : sendOk w with
        | false => simp [postStep, attemptedB, hc, hm, hs, List.append_assoc]
        | true => simp [postStep, attemptedB, hc, hm, hs, List.append_assoc]

/-- Expansion of `postMessage` when at least one target is registered. -/
theorem postMessage_expand (sendOk : Nat → Bool) (st : WVState) (m : RawValue)
    (h : st.webviews.isEmpty = false) :
    postMessage sendOk st m =
      (postRemoved sendOk st).foldl removeTarget
        (if postDelivered sendOk st
         then { st with sel := postSel sendOk st m, log := st.log ++ postSent sendOk st m }
         else enqueuePendingMessage
           { st with sel := postSel sendOk st m, log := st.log ++ postSent sendOk st m } m) := by
  unfold postMessage
  simp only [h, Bool.false_eq_true, if_false]
  rw [postStep_foldl]
  simp only [Bool.false_or, List.nil_append]
  rfl

/-- Removing a list of targets filters the registry. -/
theorem foldl_removeTarget_webviews :
    ∀ (R : List Nat) (s : WVState),
      (R.foldl removeTarget s).webviews = s.webviews.filter (fun x => !(R.contains x)) := by
  intro R
  induction R with
  | nil => intro s; simp
  | cons w T ih =>
    intro s
    rw [List.foldl_cons, ih]
    simp only [removeTarget, List.filter_filter]
    congr 1
    funext x
    simp [List.contains_cons]
    exact Bool.and_comm _ _

/-- Removing a list of targets filters the readiness set. -/
theorem foldl_removeTarget_ready :
    ∀ (R : List Nat) (s : WVState),
      (R.foldl removeTarget s).ready = s.ready.filter (fun x => !(R.contains x)) := by
  intro R
  induction R with
  | nil => intro s; simp
  | cons w T ih =>
    intro s
    rw [List.foldl_cons, ih]
    simp only [removeTarget, List.filter_filter]
    congr 1
    funext x
    simp [List.contains_cons]
    exact Bool.and_comm _ _

/-- Removing a list of targets filters the config map. -/
theorem foldl_removeTarget_configs :
    ∀ (R : List Nat) (s : WVState),
      (R.foldl removeTarget s).configs = s.configs.filter (fun e => !(R.contains e.1)) := by
  intro R
  induction R with
  | nil => intro s; simp
  | cons w T ih =>
    intro s
    rw [List.foldl_cons, ih]
    simp only [removeTarget, List.filter_filter]
    congr 1
    funext e
    simp [List.contains_cons]
    exact Bool.and_comm _ _

/-- Removals never touch the send log. -/
theorem foldl_removeTarget_log :
    ∀ (R : List Nat) (s : WVState), (R.foldl removeTarget s).log = s.log := by
  intro R
  induction R with
  | nil => intro s; rfl
  | cons w T ih => intro s; rw [List.foldl_cons, ih]; rfl

/-- Removals never touch the pending buffer. -/
theorem foldl_removeTarget_pending :
    ∀ (R : List Nat) (s : WVState), (R.foldl removeTarget s).pending = s.pending := by
  intro R
  induction R with
  | nil => intro s; rfl
  | cons w T ih => intro s; rw [List.foldl_cons, ih]; rfl

/-- A key evicted from an association list no longer resolves. -/
theorem lookupConfig_filter_out (cfgs : List (Nat × WVConfig)) (R : List Nat) (w : Nat)
    (h : R.contains w = true) :
    lookupConfig (cfgs.filter (fun e => !(R.contains e.1))) w = none := by
  induction cfgs with
  | nil => rfl
  | cons e t ih =>
    rw [List.filter_cons]
    by_cases hk : e.1 = w
    · rw [if_neg]
      · exact ih
      · simp only [hk, h, Bool.not_true]
        simp
    · split
      · simp only [lookupConfig]
        rw [if_neg hk]
        exact ih
      · exact ih

/-- C5: during a broadcast with at least one registered target, a target
whose send throws is removed from all three tracking sets; a target whose
send succeeds receives the message (other targets' failures abort
nothing) and stays registered; one success suffices to leave the buffer
untouched; and when delivery is attempted but every attempted target
fails, the message is buffered as a fallback.  `postMessage` is a total
function, so no failure reaches its caller. -/
theorem post_failure_isolation (sendOk : Nat → Bool) (st : WVState) (m : RawValue)
    (hne : st.webviews.isEmpty = false) :
    (∀ w, w ∈ st.webviews → attemptedB st w = true → sendOk w = false →
      w ∉ (postMessage sendOk st m).webviews ∧
      w ∉ (postMessage sendOk st m).ready ∧
      lookupConfig (postMessage sendOk st m).configs w = none) ∧
    (∀ w, w ∈ st.webviews → attemptedB st w = true → sendOk w = true →
      (w, m) ∈ (postMessage sendOk st m).log ∧ w ∈ (postMessage sendOk st m).webviews) ∧
    ((∃ w, w ∈ st.webviews ∧ attemptedB st w = true ∧ sendOk w = true) →
      (postMessage sendOk st m).pending = st.pending) ∧
    ((∃ w, w ∈ st.webviews ∧ attemptedB st w = true) →
      (∀ w, w ∈ st.webviews → attemptedB st w = true → sendOk w = false) →
      (postMessage sendOk st m).pending = enqueueList st.pending m) := by
  rw [postMessage_expand sendOk st m hne]
  set core : WVState :=
    { st with sel := postSel sendOk st m, log := st.log ++ postSent sendOk st m } with hcore
  have hwv : (if postDelivered sendOk st then core else enqueuePendingMessage core m).webviews
      = st.webviews := by
    split <;> rfl
  have hrd : (if postDelivered sendOk st then core else enqueuePendingMessage core m).ready
      = st.ready := by
    split <;> rfl
  have hcf : (if postDelivered sendOk st then core else enqueuePendingMessage core m).configs
      = st.configs := by
    split <;> rfl
  have hlg : (if postDelivered sendOk st then core else enqueuePendingMessage core m).log
      = st.log ++ postSent sendOk st m := by
    split <;> rfl
  refine ⟨?_, ?_, ?_, ?_⟩
  · intro w hw hatt hko
    have hmem : w ∈ postRemoved sendOk st :=
      List.mem_filter.mpr ⟨hw, by simp [hatt, hko]⟩
    have hcont : (postRemoved sendOk st).contains w = true :=
      List.elem_eq_true_of_mem hmem
    refine ⟨?_, ?_, ?_⟩
    · rw [foldl_removeTarget_webviews, hwv]
      intro hcontra
      have hpred := (List.mem_filter.mp hcontra).2
      rw [hcont] at hpred
      simp at hpred
    · rw [foldl_removeTarget_ready, hrd]
      intro hcontra
      have hpred := (List.mem_filter.mp hcontra).2
      rw [hcont] at hpred
      simp at hpred
    · rw [foldl_removeTarget_configs, hcf]
      exact lookupConfig_filter_out st.configs (postRemoved sendOk st) w hcont
  · intro w hw hatt hok
    have hnr : w ∉ postRemoved sendOk st := by
      intro hcontra
      have hpred := (List.mem_filter.mp hcontra).2
      rw [hatt, hok] at hpred
      simp at hpred
    have hncont : (postRemoved sendOk st).contains w = false := by
      cases hc : (postRemoved sendOk st).contains w with
      | false => rfl
      | true => exact absurd (List.mem_of_elem_eq_true hc) hnr
    constructor
    · rw [foldl_removeTarget_log, hlg]
      have hsent : (w, m) ∈ postSent sendOk st m := by
        simp only [postSent, List.mem_map]
        exact ⟨w, List.mem_filter.mpr ⟨hw, by simp [hatt, hok]⟩, rfl⟩
      exact List.mem_append_right _ hsent
    · rw [foldl_removeTarget_webviews, hwv]
      exact List.mem_filter.mpr ⟨hw, by rw [hncont]; rfl⟩
  · intro hex
    obtain ⟨w, hw, hatt, hok⟩ := hex
    have hdel : postDelivered sendOk st = true := by
      simp only [postDelivered, List.any_eq_true]
      exact ⟨w, hw, by simp [hatt, hok]⟩
    rw [foldl_removeTarget_pending, hdel, if_pos rfl]
  · intro hex hall
    obtain ⟨w, hw, hatt⟩ := hex
    have hdel : postDelivered sendOk st = false := by
      simp only [postDelivered, List.any_eq_false]
      intro x hx
      cases hax : attemptedB st x with
      | false => simp [hax]
      | true => simp [hax, hall x hx hax]
    rw [foldl_removeTarget_pending, hdel, if_neg (by simp)]
    rfl

/-- A two-target state: target 1 will fail, target 2 will succeed. -/
def c5State : WVState :=
  { webviews := [1, 2]
    ready := [1, 2]
    configs := [(1, chatConfig), (2, chatConfig)]
    pending := []
    sel := SelState.init
    log := [] }

/-- Witness for C5: in `c5State`, a send failure on target 1 evicts it
from all three tracking sets. -/
theorem post_failure_isolation_witness :
    1 ∉ (postMessage (fun w => w == 2) c5State (.int 9)).webviews ∧
    1 ∉ (postMessage (fun w => w == 2) c5State (.int 9)).ready ∧
    lookupConfig (postMessage (fun w => w == 2) c5State (.int 9)).configs 1 = none :=
  (post_failure_isolation (fun w => w == 2) c5State (.int 9) (by rfl)).1 1
    (by decide) (by rfl) (by rfl)

/-! ## Claim C6: buffering with no target, then flush on readiness -/

/-- A replay loop whose sends all succeed reports no failure and sends the
whole buffer. -/
theorem flushLoop_ok_of_lt (ok : Nat → Bool) :
    ∀ (ps : List RawValue) (i : Nat) (sel : SelState),
      (∀ j, j < ps.length → ok (i + j) = true) →
      ∃ sel', flushLoop ok ps i sel = (false, sel', ps) := by
  intro ps
  induction ps with
  | nil => exact fun i sel _ => ⟨sel, rfl⟩
  | cons p t ih =>
    intro i sel hok
    have h0 : ok i = true := by
      have h := hok 0 (by simp)
      simpa using h
    obtain ⟨sel', hrec⟩ := ih (i + 1) (applyAutoIncludeDelivered sel p)
      (fun j hj => by
        have heq : i + 1 + j = i + (j + 1) := by omega
        rw [heq]
        exact hok (j + 1) (by simp only [List.length_cons]; omega))
    exact ⟨sel', by simp [flushLoop, h0, hrec]⟩

/-- C6: posting messages with zero registered targets buffers them all (in
order); registering a sidebar/chat target and marking it ready flushes the
whole buffer to that target in original enqueue order and empties the
buffer; a message posted afterwards reaches the target after all the
replayed ones, and the buffer stays empty. -/
theorem buffered_then_flushed_in_order (ms : List RawValue) (m' : RawValue)
    (hlen : ms.length ≤ MAX_PENDING_MESSAGES) :
    (postAll ms WVState.init).pending = ms ∧
    (postAll ms WVState.init).webviews = [] ∧
    (markWebviewReady (fun _ _ => true)
        (registerWebview (postAll ms WVState.init) 0 chatConfig) 0).pending = [] ∧
    (markWebviewReady (fun _ _ => true)
        (registerWebview (postAll ms WVState.init) 0 chatConfig) 0).log
      = ms.map (fun m => (0, m)) ∧
    (postMessage (fun _ => true)
        (markWebviewReady (fun _ _ => true)
          (registerWebview (postAll ms WVState.init) 0 chatConfig) 0) m').log
      = ms.map (fun m => (0, m)) ++ [(0, m')] ∧
    (postMessage (fun _ => true)
        (markWebviewReady (fun _ _ => true)
          (registerWebview (postAll ms WVState.init) 0 chatConfig) 0) m').pending = [] := by
  have h1 : postAll ms WVState.init = ⟨[], [], [], ms, SelState.init, []⟩ := by
    rw [postAll_no_targets ms WVState.init rfl]
    have hfe := foldl_enqueueList ms [] (by simp)
    simp only [List.nil_append, List.length_nil, Nat.zero_add] at hfe
    have hz : ms.length - MAX_PENDING_MESSAGES = 0 := by omega
    rw [hz, List.drop_zero] at hfe
    simp [WVState.init, hfe]
  have h2 : registerWebview (⟨[], [], [], ms, SelState.init, []⟩ : WVState) 0 chatConfig
      = ⟨[0], [], [(0, chatConfig)], ms, SelState.init, []⟩ := rfl
  obtain ⟨sel', h3⟩ : ∃ sel',
      markWebviewReady (fun _ _ => true)
        (⟨[0], [], [(0, chatConfig)], ms, SelState.init, []⟩ : WVState) 0
      = ⟨[0], [0], [(0, chatConfig)], [], sel', ms.map (fun m => (0, m))⟩ := by
    cases ms with
    | nil => exact ⟨SelState.init, rfl⟩
    | cons m t =>
      obtain ⟨sel', hfl⟩ := flushLoop_ok_of_lt (fun _ => true) (m :: t) 0 SelState.init
        (fun _ _ => rfl)
      refine ⟨sel', ?_⟩
      unfold markWebviewReady
      rw [if_neg (by simp)]
      unfold flushPendingMessages
      rw [if_neg (by simp)]
      simp only [List.nil_append, List.foldl_cons, List.foldl_nil]
      unfold flushStep
      rw [if_pos (by rfl)]
      simp only [hfl]
      simp
  have h4 : postMessage (fun _ => true)
      (⟨[0], [0], [(0, chatConfig)], [], sel', ms.map (fun m => (0, m))⟩ : WVState) m'
      = ⟨[0], [0], [(0, chatConfig)], [], applyAutoIncludeDelivered sel' m',
          ms.map (fun m => (0, m)) ++ [(0, m')]⟩ := rfl
  rw [h1, h2, h3, h4]
  exact ⟨rfl, rfl, rfl, rfl, rfl, rfl⟩

/-- Witness for C6 at two concrete buffered messages and one posted after
the flush. -/
theorem buffered_then_flushed_in_order_witness :
    (postAll [RawValue.int 1, RawValue.int 2] WVState.init).pending
      = [RawValue.int 1, RawValue.int 2] ∧
    (postAll [RawValue.int 1, RawValue.int 2] WVState.init).webviews = [] ∧
    (markWebviewReady (fun _ _ => true)
        (registerWebview (postAll [RawValue.int 1, RawValue.int 2] WVState.init) 0 chatConfig)
        0).pending = [] ∧
    (markWebviewReady (fun _ _ => true)
        (registerWebview (postAll [RawValue.int 1, RawValue.int 2] WVState.init) 0 chatConfig)
        0).log
      = [RawValue.int 1, RawValue.int 2].map (fun m => (0, m)) ∧
    (postMessage (fun _ => true)
        (markWebviewReady (fun _ _ => true)
          (registerWebview (postAll [RawValue.int 1, RawValue.int 2] WVState.init) 0 chatConfig)
          0) (RawValue.int 3)).log
      = [RawValue.int 1, RawValue.int 2].map (fun m => (0, m)) ++ [(0, RawValue.int 3)] ∧
    (postMessage (fun _ => true)
        (markWebviewReady (fun _ _ => true)
          (registerWebview (postAll [RawValue.int 1, RawValue.int 2] WVState.init) 0 chatConfig)
          0) (RawValue.int 3)).pending = [] :=
  buffered_then_flushed_in_order [RawValue.int 1, RawValue.int 2] (RawValue.int 3)
    (by simp [MAX_PENDING_MESSAGES])

/-! ## Claim C2: the buffer is cleared only by a flush, never partially -/

/-- One flush iteration never touches the pending buffer (it is cleared
only after the outer loop). -/
theorem flushStep_pending (sendOk : Nat → Nat → Bool) (s : WVState) (w : Nat) :
    (flushStep sendOk s w).pending = s.pending := by
  unfold flushStep
  split
  · dsimp only
    split <;> rfl
  · rfl

/-- One flush iteration only appends log entries addressed to its target. -/
theorem flushStep_log (sendOk : Nat → Nat → Bool) (s : WVState) (w : Nat) :
    ∃ d, (flushStep sendOk s w).log = s.log ++ d ∧ ∀ e ∈ d, e.1 = w := by
  unfold flushStep
  split
  · dsimp only
    split
    · exact ⟨_, rfl, fun e he => by
        obtain ⟨p, _, hp⟩ := List.mem_map.mp he
        rw [← hp]⟩
    · exact ⟨_, rfl, fun e he => by
        obtain ⟨p, _, hp⟩ := List.mem_map.mp he
        rw [← hp]⟩
  · exact ⟨[], by simp, by simp⟩

/-- Filtering one key out of an association list leaves other keys'
resolution unchanged. -/
theorem lookupConfig_filter_ne (cfgs : List (Nat × WVConfig)) (w x : Nat) (h : x ≠ w) :
    lookupConfig (cfgs.filter (fun e => !(e.1 = w))) x = lookupConfig cfgs x := by
  induction cfgs with
  | nil => rfl
  | cons e t ih =>
    rw [List.filter_cons]
    by_cases hk : e.1 = w
    · rw [if_neg (by simp [hk])]
      rw [ih]
      simp only [lookupConfig]
      rw [if_neg (by intro hex; apply h; rw [← hex]; exact hk)]
    · rw [if_pos (by simp [hk])]
      simp only [lookupConfig]
      by_cases hex : e.1 = x
      · rw [if_pos hex, if_pos hex]
      · rw [if_neg hex, if_neg hex, ih]

/-- One flush iteration leaves other targets' configs resolvable. -/
theorem flushStep_lookup_ne (sendOk : Nat → Nat → Bool) (s : WVState) (w x : Nat)
    (h : x ≠ w) :
    lookupConfig (flushStep sendOk s w).configs x = lookupConfig s.configs x := by
  unfold flushStep
  split
  · dsimp only
    split
    · exact lookupConfig_filter_ne _ _ _ h
    · rfl
  · rfl

/-- The outer flush loop only appends log entries addressed to targets of
the iterated list, and never touches the pending buffer. -/
theorem flush_fold_log_entries (sendOk : Nat → Nat → Bool) :
    ∀ (T : List Nat) (s : WVState),
      ∃ d, (T.foldl (flushStep sendOk) s).log = s.log ++ d ∧ ∀ e ∈ d, e.1 ∈ T := by
  intro T
  induction T with
  | nil => exact fun s => ⟨[], by simp, by simp⟩
  | cons a T ih =>
    intro s
    obtain ⟨d0, hd0, hf0⟩ := flushStep_log sendOk s a
    obtain ⟨d1, hd1, hf1⟩ := ih (flushStep sendOk s a)
    refine ⟨d0 ++ d1, ?_, ?_⟩
    · rw [List.foldl_cons, hd1, hd0, List.append_assoc]
    · intro e he
      rcases List.mem_append.mp he with h | h
      · exact List.mem_cons.mpr (Or.inl (hf0 e h))
      · exact List.mem_cons.mpr (Or.inr (hf1 e h))

/-- Selecting one target's sends distributes over append. -/
theorem sentTo_append (a b : List (Nat × RawValue)) (w : Nat) :
    sentTo (a ++ b) w = sentTo a w ++ sentTo b w := by
  simp [sentTo, List.filterMap_append]

/-- A uniform batch addressed to a target is received in full, in order. -/
theorem sentTo_map_self (ps : List RawValue) (w : Nat) :
    sentTo (ps.map (fun m => (w, m))) w = ps := by
  induction ps with
  | nil => rfl
  | cons p t ih =>
    simp only [sentTo, List.map_cons, List.filterMap_cons] at ih ⊢
    simp [ih]

/-- Entries addressed to other targets contribute nothing. -/
theorem sentTo_nil_of_ne (d : List (Nat × RawValue)) (w : Nat) (h : ∀ e ∈ d, e.1 ≠ w) :
    sentTo d w = [] := by
  induction d with
  | nil => rfl
  | cons e t ih =>
    simp only [sentTo, List.filterMap_cons]
    rw [if_neg (h e (List.mem_cons_self e t))]
    exact ih fun x hx => h x (List.mem_cons_of_mem e hx)

/-- A flush iteration over a matching target with all sends succeeding
appends exactly the whole buffer, in order, to the log. -/
theorem flushStep_all_ok (sendOk : Nat → Nat → Bool) (s : WVState) (w : Nat)
    (hm : matchesChat s.configs w = true)
    (hok : ∀ i, i < s.pending.length → sendOk w i = true) :
    ∃ sel', flushStep sendOk s w
      = { s with sel := sel', log := s.log ++ s.pending.map (fun m => (w, m)) } := by
  obtain ⟨sel', hfl⟩ := flushLoop_ok_of_lt (sendOk w) s.pending 0 s.sel
    (fun j hj => by simpa using hok j hj)
  refine ⟨sel', ?_⟩
  unfold flushStep
  rw [if_pos hm]
  simp only [hfl]
  rfl

/-- During a flush, a still-good (never failing) ready matching target
receives the whole buffer in original order. -/
theorem flush_fold_replay (sendOk : Nat → Nat → Bool) :
    ∀ (L : List Nat) (s : WVState) (w : Nat), L.Nodup → w ∈ L →
      matchesChat s.configs w = true →
      (∀ i, i < s.pending.length → sendOk w i = true) →
      sentTo (((L.foldl (flushStep sendOk) s).log).drop s.log.length) w = s.pending := by
  intro L
  induction L with
  | nil => intro s w _ hw; exact absurd hw (List.not_mem_nil w)
  | cons a T ih =>
    intro s w hnd hw hm hok
    rw [List.foldl_cons]
    by_cases haw : a = w
    · subst haw
      obtain ⟨sel', hstep⟩ := flushStep_all_ok sendOk s a hm hok
      rw [hstep]
      have hanT : a ∉ T := (List.nodup_cons.mp hnd).1
      obtain ⟨d, hd, hdf⟩ := flush_fold_log_entries sendOk T
        { s with sel := sel', log := s.log ++ s.pending.map (fun m => (a, m)) }
      rw [hd]
      dsimp only
      rw [List.append_assoc, List.drop_left, sentTo_append, sentTo_map_self,
        sentTo_nil_of_ne d a (fun e he heq => hanT (heq ▸ hdf e he))]
      simp
    · have hwT : w ∈ T := by
        rcases List.mem_cons.mp hw with h | h
        · exact absurd h.symm haw
        · exact h
      have hnd' : T.Nodup := (List.nodup_cons.mp hnd).2
      have hm' : matchesChat (flushStep sendOk s a).configs w = true := by
        unfold matchesChat at hm ⊢
        rw [flushStep_lookup_ne sendOk s a w (fun h0 => haw h0.symm)]
        exact hm
      have hpend : (flushStep sendOk s a).pending = s.pending := flushStep_pending sendOk s a
      have hok' : ∀ i, i < (flushStep sendOk s a).pending.length → sendOk w i = true := by
        rw [hpend]
        exact hok
      have hrep := ih (flushStep sendOk s a) w hnd' hwT hm' hok'
      rw [hpend] at hrep
      obtain ⟨d0, hd0, hf0⟩ := flushStep_log sendOk s a
      obtain ⟨d1, hd1, hf1⟩ := flush_fold_log_entries sendOk T (flushStep sendOk s a)
      have hrep2 : sentTo d1 w = s.pending := by
        rw [hd1, hd0, List.drop_left] at hrep
        exact hrep
      rw [hd1, hd0, List.append_assoc, List.drop_left, sentTo_append,
        sentTo_nil_of_ne d0 w (fun e he heq => haw (by rw [← hf0 e he]; exact heq)),
        hrep2]
      simp

/-- Enqueueing never produces an empty buffer. -/
theorem enqueueList_ne_nil (p : List RawValue) (m : RawValue) : enqueueList p m ≠ [] := by
  intro h
  have hlen := congrArg List.length h
  rw [enqueueList_def] at hlen
  split at hlen
  · rename_i hc
    rw [List.length_drop] at hlen
    simp only [List.length_append, List.length_cons, List.length_nil] at hlen
    simp [MAX_PENDING_MESSAGES] at hc
    omega
  · simp at hlen

/-- C2: the buffer is never partially cleared — a flush with a non-empty
readiness set empties it entirely, a flush under the guard leaves the
whole state untouched; `postMessage` and `registerWebview` never take the
buffer from non-empty to empty (only a flush does, possibly via
`markWebviewReady`); and the flush replays the full buffer in original
order to every still-good ready addressing-matching target. -/
theorem pending_cleared_only_by_flush (sendOk : Nat → Nat → Bool) (sendOk1 : Nat → Bool)
    (st : WVState) (m : RawValue) :
    (st.ready = [] ∨ st.pending = [] → flushPendingMessages sendOk st = st) ∧
    (st.pending ≠ [] → st.ready ≠ [] → (flushPendingMessages sendOk st).pending = []) ∧
    (st.pending ≠ [] → (postMessage sendOk1 st m).pending ≠ []) ∧
    (∀ w cfg, (registerWebview st w cfg).pending = st.pending) ∧
    (∀ w, (markWebviewReady sendOk st w).pending = st.pending ∨
      (markWebviewReady sendOk st w).pending = []) ∧
    (st.ready.Nodup →
      ∀ w, w ∈ st.ready → matchesChat st.configs w = true →
        (∀ i, i < st.pending.length → sendOk w i = true) →
        sentTo (((flushPendingMessages sendOk st).log).drop st.log.length) w = st.pending) := by
  refine ⟨?_, ?_, ?_, ?_, ?_, ?_⟩
  · intro h
    unfold flushPendingMessages
    rcases h with h | h <;> rw [if_pos (by simp [h])]
  · intro hp hr
    unfold flushPendingMessages
    rw [if_neg (by simp [List.isEmpty_iff, hp, hr])]
  · intro hp
    cases hweb : st.webviews.isEmpty with
    | true =>
      unfold postMessage
      rw [if_pos hweb]
      exact enqueueList_ne_nil st.pending m
    | false =>
      rw [postMessage_expand sendOk1 st m hweb, foldl_removeTarget_pending]
      split
      · exact hp
      · exact enqueueList_ne_nil st.pending m
  · intro w cfg
    rfl
  · intro w
    unfold markWebviewReady
    split
    · exact Or.inl rfl
    · unfold flushPendingMessages
      split
      · exact Or.inl rfl
      · exact Or.inr rfl
  · intro hnd w hw hm hok
    unfold flushPendingMessages
    cases hg : (st.ready.isEmpty || st.pending.isEmpty) with
    | true =>
      rw [if_pos rfl]
      have hrne : st.ready ≠ [] := by
        intro h0
        rw [h0] at hw
        exact absurd hw (List.not_mem_nil w)
      have hpe : st.pending = [] := by
        simp [List.isEmpty_iff] at hg
        rcases hg with h | h
        · exact absurd h hrne
        · exact h
      simp [List.drop_length, sentTo, hpe]
    | false =>
      rw [if_neg (by simp)]
      exact flush_fold_replay sendOk st.ready st w hnd hw hm hok

/-- A one-target state with two buffered messages. -/
def c2State : WVState :=
  { webviews := [0]
    ready := [0]
    configs := [(0, chatConfig)]
    pending := [RawValue.int 1, RawValue.int 2]
    sel := SelState.init
    log := [] }

/-- Witness for C2: flushing `c2State` hands the full buffer, in order, to
the ready chat target. -/
theorem pending_cleared_only_by_flush_witness :
    sentTo (((flushPendingMessages (fun _ _ => true) c2State).log).drop c2State.log.length) 0
      = c2State.pending :=
  (pending_cleared_only_by_flush (fun _ _ => true) (fun _ => true) c2State (.int 0)).2.2.2.2.2
    (by decide) 0 (by decide) (by rfl) (fun i _ => rfl)

end Claudix
